import Mathlib

/-!
Verification of the graph-to-reactive-stream compiler and runtime of the
rxcraft repository (`src/lib/rx-logic.ts`, together with the lifecycle-event
consumer in `src/components/rx-visualizer.tsx`).

The TypeScript code is shallowly embedded: the graph data model becomes Lean
structures, the recursive graph walks (`calculateSubscriptionCounts`,
`processOperator`) become fuel-indexed structural recursions (a fuel of `0`
yields `none`, modelling a computation that has not terminated within the
given recursion depth), and the observable producers built by `buildRxStream`
become an explicit syntax tree.  Behaviour of the rxjs primitives the code
relies on (cold observables replaying per subscription, `Subscription.closed`
making `unsubscribe` idempotent, `Subject.complete` stopping delivery) is
modelled following rxjs's documented semantics where a claim depends on it.
-/

namespace RxCraft

/-- Runtime values flowing through the streams (JSON-ish scalars suffice for
the properties considered here). -/
inductive RVal where
  | i (n : Int)
  | s (str : String)
deriving DecidableEq, Repr

/-- The `data.type` field of a node. -/
inductive NodeKind where
  | observable
  | operator
  | observer
deriving DecidableEq, Repr

/-- The `targetHandle` of an edge (`"primary"`, `"secondary"`, or anything
else / absent). -/
inductive Port where
  | primary
  | secondary
  | unspecified
deriving DecidableEq, Repr

/-- The per-node configuration object (`node.data.config`); absent fields are
`none`, mirroring `undefined` in JS. -/
structure Config where
  period : Option Nat := none
  count : Option Nat := none
  delay : Option Nat := none
  successRate : Option ℚ := none
  values : Option (List RVal) := none
  valuesMalformed : Bool := false
  func : Option String := none
  value : Option RVal := none
  time : Option Nat := none
deriving DecidableEq, Repr

/-- A graph node: `id` is the reactflow node id, `subtype` is `data.id`
(e.g. `"interval"`, `"map"`, `"takeUntil"`). -/
structure GNode where
  id : String
  kind : NodeKind
  subtype : String
  multipleInputs : Bool := false
  config : Config := {}
deriving DecidableEq, Repr

/-- A directed edge of the graph. -/
structure GEdge where
  source : String
  target : String
  targetHandle : Port := Port.unspecified
deriving DecidableEq, Repr

/-- The node/edge graph handed to `buildRxStream`. -/
structure Graph where
  nodes : List GNode
  edges : List GEdge
deriving DecidableEq, Repr

/-- Embedding of `nodes.find(n => n.id === nid)`. -/
def findNode (g : Graph) (nid : String) : Option GNode :=
  g.nodes.find? (fun n => n.id == nid)

/-- Embedding of `edges.filter(edge => edge.source === nid)` — the downstream edges of a
node. -/
def outEdges (g : Graph) (nid : String) : List GEdge :=
  g.edges.filter (fun e => e.source == nid)

/-- Embedding of `nodeConnections.get(nid)` — the upstream sources of a node, in edge
order (the code pushes `edge.source` while iterating `edges`). -/
def connectionsTo (g : Graph) (nid : String) : List String :=
  (g.edges.filter (fun e => e.target == nid)).map (fun e => e.source)

/-- Whether `nodes.find(n => n.id === nid)` is an observer node. -/
def isObserverNode (g : Graph) (nid : String) : Bool :=
  match findNode g nid with
  | some n => n.kind == NodeKind.observer
  | none => false

/-- JS `x || d` on an optional number: `undefined` and `0` are falsy. -/
def jsOrNat (v : Option Nat) (d : Nat) : Nat :=
  match v with
  | none => d
  | some x => if x = 0 then d else x

/-- JS `x || d` on an optional rational: `undefined` and `0` are falsy. -/
def jsOrRat (v : Option ℚ) (d : ℚ) : ℚ :=
  match v with
  | none => d
  | some x => if x = 0 then d else x

/-- JS `s || d` on an optional string: `undefined` and `""` are falsy. -/
def jsOrStr (v : Option String) (d : String) : String :=
  match v with
  | none => d
  | some x => if x = "" then d else x

/-! ### Demand computation (`calculateSubscriptionCounts`)

The source function memoizes into the shared `nodeSubscriptionCounts` map,
writing an entry only *after* the recursive summation over the downstream
edges has returned.  The embedding threads that memo map explicitly and is
indexed by a recursion-depth fuel; `none` means the recursion did not finish
within the given depth. -/

/-- The `nodeSubscriptionCounts` map, as an association list (later entries
shadow earlier ones, like `Map.set`). -/
abbrev Memo := List (String × Nat)

/-- The body of `downstreamEdges.reduce((total, edge) => total +
calculateSubscriptionCounts(edge.target), 0)`, threading the shared memo map
through the recursive calls. -/
def sumSubWith (rec : Memo → String → Option (Nat × Memo)) :
    List GEdge → Nat → Memo → Option (Nat × Memo)
  | [], acc, memo => some (acc, memo)
  | e :: rest, acc, memo =>
    match rec memo e.target with
    | none => none
    | some (k, m) => sumSubWith rec rest (acc + k) m

/-- Embedding of `calculateSubscriptionCounts`, fuel-indexed.  Mirrors the source exactly:
memo hit returns the cached count; a node with no downstream edges yields `1`
(and a memo entry) when it is an observer, else `0` (and *no* memo entry);
otherwise the counts of the downstream targets are summed and the total is
memoized. -/
def calcSubCountsF (g : Graph) : Nat → Memo → String → Option (Nat × Memo)
  | 0 => fun _ _ => none
  | f + 1 => fun memo nid =>
    match memo.lookup nid with
    | some k => some (k, memo)
    | none =>
      let outs := outEdges g nid
      if outs.isEmpty then
        if isObserverNode g nid then some (1, (nid, 1) :: memo)
        else some (0, memo)
      else
        match sumSubWith (calcSubCountsF g f) outs 0 memo with
        | none => none
        | some (t, m) => some (t, (nid, t) :: m)

/-- Embedding of `nodes.forEach(node => calculateSubscriptionCounts(node.id))` — the memo
map after running the computation for every node in order. -/
def runDemandsAux (g : Graph) (f : Nat) : List GNode → Memo → Option Memo
  | [], memo => some memo
  | n :: rest, memo =>
    match calcSubCountsF g f memo n.id with
    | none => none
    | some (_, m) => runDemandsAux g f rest m

/-- The whole demand-computation pass of `buildRxStream`. -/
def runDemandsF (g : Graph) (f : Nat) : Option Memo :=
  runDemandsAux g f g.nodes []

/-- Embedding of `nodeSubscriptionCounts.get(node.id) || 0`. -/
def demandOf (memo : Memo) (nid : String) : Nat :=
  (memo.lookup nid).getD 0

/-! ### Spec-side sink-path count

A memo-free rendering of the same recursion: the number of maximal downstream
edge-paths that end at an observer node.  Proven below to agree with the
memoized source computation, and to equal the length of the explicit list of
such paths. -/

/-- Memo-free summation over the downstream edges. -/
def sumPathsWith (rec : String → Option Nat) : List GEdge → Nat → Option Nat
  | [], acc => some acc
  | e :: rest, acc =>
    match rec e.target with
    | none => none
    | some k => sumPathsWith rec rest (acc + k)

/-- Memo-free sink-path count: a leaf counts `1` iff it is an observer, an
inner node counts the sum over its downstream edges. -/
def sinkPathCountF (g : Graph) : Nat → String → Option Nat
  | 0 => fun _ => none
  | f + 1 => fun nid =>
    let outs := outEdges g nid
    if outs.isEmpty then
      some (if isObserverNode g nid then 1 else 0)
    else
      sumPathsWith (sinkPathCountF g f) outs 0

/-- Concatenation of the path lists produced for each downstream edge. -/
def joinPathsWith (rec : String → Option (List (List String))) :
    List GEdge → List (List String) → Option (List (List String))
  | [], acc => some acc
  | e :: rest, acc =>
    match rec e.target with
    | none => none
    | some ps => joinPathsWith rec rest (acc ++ ps)

/-- The explicit list of maximal downstream paths (as node-id lists) that end
at an observer node. -/
def sinkPathsF (g : Graph) : Nat → String → Option (List (List String))
  | 0 => fun _ => none
  | f + 1 => fun nid =>
    let outs := outEdges g nid
    if outs.isEmpty then
      some (if isObserverNode g nid then [[nid]] else [])
    else
      match joinPathsWith (sinkPathsF g f) outs [] with
      | none => none
      | some ps => some (ps.map (fun p => nid :: p))

/-- A memo map is valid when every cached count is the sink-path count of its
node (at some sufficient recursion depth). -/
def ValidMemo (g : Graph) (memo : Memo) : Prop :=
  ∀ nid k, memo.lookup nid = some k → ∃ f, sinkPathCountF g f nid = some k

/-! ### Producer construction (`buildRxStream` passes 1-3)

The observables stored in `nodeObservables` are represented by a syntax tree.
`lifecycleWrap` is the `tap`+`finalize` pipe that reports a producer's own
events on the bus under the node's id. -/

/-- Syntax tree of the observables built by `buildRxStream`. -/
inductive Producer where
  | emptyP
  | neverP
  | intervalP (period : Nat)
  | arrayP (values : List RVal)
  | arrayBadJson
  | fetchP
  | eventP (sub : String)
  | probabilisticP (delay : Nat) (successRate : ℚ)
  | mergeP (inputs : List Producer)
  | raceP (inputs : List Producer)
  | takeUntilP (p s : Producer)
  | skipUntilP (p s : Producer)
  | zipP (p s : Producer)
  | bufferP (p s : Producer)
  | switchMapToP (p s : Producer)
  | mapP (func : String) (src : Producer)
  | filterP (func : String) (src : Producer)
  | takeP (maxCount : Nat) (src : Producer)
  | skipP (count : Nat) (src : Producer)
  | startWithP (v : RVal) (src : Producer)
  | retryP (count : Nat) (src : Producer)
  | timeoutP (time : Nat) (src : Producer)
  | lifecycleWrap (nodeId : String) (src : Producer)

/-- The default `'["A", "B", "C"]'` array-source values. -/
def defaultArrayValues : List RVal := [RVal.s "A", RVal.s "B", RVal.s "C"]

/-- First pass of `buildRxStream`: the `switch (node.data.id)` that builds a
source observable for an observable-kind node (`merge`/`race` and the
fall-through case yield `EMPTY` in this pass). -/
def buildSource (n : GNode) : Producer :=
  match n.subtype with
  | "click" => Producer.eventP "click"
  | "mousemove" => Producer.eventP "mousemove"
  | "mouse" => Producer.eventP "mouse"
  | "keydown" => Producer.eventP "keydown"
  | "interval" => Producer.intervalP (jsOrNat n.config.period 1000)
  | "array" =>
    if n.config.valuesMalformed then Producer.arrayBadJson
    else Producer.arrayP (n.config.values.getD defaultArrayValues)
  | "fetch" => Producer.fetchP
  | "empty" => Producer.emptyP
  | "never" => Producer.neverP
  | "probabilistic" =>
    Producer.probabilisticP (jsOrNat n.config.delay 1000)
      (jsOrRat n.config.successRate (1 / 2))
  | _ => Producer.emptyP

/-- The `source$` wrapped with the lifecycle `tap`/`finalize` pipe exactly when
the node has no downstream edges. -/
def wrapIfNoDownstream (g : Graph) (nid : String) (p : Producer) : Producer :=
  if (outEdges g nid).isEmpty then Producer.lifecycleWrap nid p else p

/-- The `nodeObservables` map (later entries shadow earlier ones, like
`Map.set`). -/
abbrev ObsMap := List (String × Producer)

/-- Pass 1: sources for every observable-kind node. -/
def buildSourcesPass (g : Graph) : ObsMap :=
  (g.nodes.filter (fun n => n.kind == NodeKind.observable)).foldl
    (fun m n => (n.id, wrapIfNoDownstream g n.id (buildSource n)) :: m) []

/-- Pass 2 body: replace a `merge`/`race` node's `EMPTY` placeholder when it
has at least two resolved inputs. -/
def mergeRaceStep (g : Graph) (m : ObsMap) (n : GNode) : ObsMap :=
  let inputs := connectionsTo g n.id
  if inputs.length ≥ 2 then
    let inputObs := inputs.filterMap (fun i => m.lookup i)
    let src :=
      if n.subtype == "merge" then Producer.mergeP inputObs
      else Producer.raceP inputObs
    (n.id, wrapIfNoDownstream g n.id src) :: m
  else m

/-- Pass 2: the special handling of `merge`/`race` observable nodes. -/
def buildMergeRacePass (g : Graph) (m : ObsMap) : ObsMap :=
  (g.nodes.filter (fun n =>
    n.kind == NodeKind.observable && (n.subtype == "merge" || n.subtype == "race"))).foldl
    (mergeRaceStep g) m

/-- The `targetPort === "primary"` resolution of `nodeConnectionDetails`: the
last primary-handle edge wins (`forEach` assignment order). -/
def primaryDetail (g : Graph) (nid : String) : Option String :=
  ((g.edges.filter (fun e =>
    e.target == nid && e.targetHandle == Port.primary)).map (fun e => e.source)).getLast?

/-- The `targetPort === "secondary"` resolution of `nodeConnectionDetails`. -/
def secondaryDetail (g : Graph) (nid : String) : Option String :=
  ((g.edges.filter (fun e =>
    e.target == nid && e.targetHandle == Port.secondary)).map (fun e => e.source)).getLast?

/-- State mutated by `processOperator`: the `processedOperators` visited set
and the shared `nodeObservables` map. -/
structure PState where
  processed : List String
  obs : ObsMap

/-- The `switch (node.data.id)` of the dual-input branch. -/
def dualResult (subtype : String) (p s : Producer) : Producer :=
  match subtype with
  | "takeUntil" => Producer.takeUntilP p s
  | "skipUntil" => Producer.skipUntilP p s
  | "zip" => Producer.zipP p s
  | "buffer" => Producer.bufferP p s
  | "switchMapTo" => Producer.switchMapToP p s
  | _ => p

/-- The `switch (node.data.id)` of the single-input branch; unknown subtypes
fall through to `result$ = source$`. -/
def singleResult (n : GNode) (src : Producer) : Producer :=
  match n.subtype with
  | "map" => Producer.mapP (jsOrStr n.config.func "x => x") src
  | "filter" => Producer.filterP (jsOrStr n.config.func "x => true") src
  | "take" => Producer.takeP (jsOrNat n.config.count 5) src
  | "skip" => Producer.skipP (jsOrNat n.config.count 2) src
  | "startWith" => Producer.startWithP (n.config.value.getD (RVal.s "init")) src
  | "retry" => Producer.retryP (jsOrNat n.config.count 3) src
  | "timeout" => Producer.timeoutP (jsOrNat n.config.time 5000) src
  | _ => src

/-- Embedding of `nodeObservables.get(x) || processOperator(x)`. -/
def lookupOrProcess (rec : PState → String → PState × Option Producer)
    (st : PState) (x : String) : PState × Option Producer :=
  match st.obs.lookup x with
  | some p => (st, some p)
  | none => rec st x

/-- Embedding of `processOperator`, fuel-indexed.  Mirrors the source: the
`processedOperators` guard is consulted first and the node is added to it
before any recursion; a node with no inputs yields no producer; the
dual-input branch requires `multipleInputs` and at least two inputs and wraps
its result with the lifecycle pipe unconditionally; the single-input branch
wraps only when the node has no downstream edges. -/
def processOperatorF (g : Graph) : Nat → PState → String → PState × Option Producer
  | 0 => fun st _ => (st, none)
  | f + 1 => fun st nid =>
    if st.processed.contains nid then (st, st.obs.lookup nid)
    else
      match findNode g nid with
      | none => (st, none)
      | some n =>
        if n.kind != NodeKind.operator then (st, none)
        else
          let st1 : PState := ⟨nid :: st.processed, st.obs⟩
          let inputs := connectionsTo g nid
          if inputs.isEmpty then (st1, none)
          else if n.multipleInputs && decide (inputs.length ≥ 2) then
            let pi :=
              match primaryDetail g nid, secondaryDetail g nid with
              | some p, some s => (p, s)
              | _, _ => (inputs.getD 0 "", inputs.getD 1 "")
            let r1 := lookupOrProcess (processOperatorF g f) st1 pi.1
            match r1.2 with
            | none => (r1.1, none)
            | some pSrc =>
              let r2 := lookupOrProcess (processOperatorF g f) r1.1 pi.2
              match r2.2 with
              | none => (r2.1, none)
              | some sSrc =>
                let result := Producer.lifecycleWrap nid (dualResult n.subtype pSrc sSrc)
                (⟨r2.1.processed, (nid, result) :: r2.1.obs⟩, some result)
          else
            let input := inputs.getD 0 ""
            let r1 := lookupOrProcess (processOperatorF g f) st1 input
            match r1.2 with
            | none => (r1.1, none)
            | some src =>
              let result := wrapIfNoDownstream g nid (singleResult n src)
              (⟨r1.1.processed, (nid, result) :: r1.1.obs⟩, some result)

/-- The whole producer-construction phase of `buildRxStream` (passes 1-3). -/
def buildProducersF (g : Graph) (fuel : Nat) : PState :=
  let m2 := buildMergeRacePass g (buildSourcesPass g)
  (g.nodes.filter (fun n => n.kind == NodeKind.operator)).foldl
    (fun st n => (processOperatorF g fuel st n.id).1) ⟨[], m2⟩

/-- Number of subscriptions the multiplexer loop creates against a node's
producer: its demand when positive and a producer exists, otherwise zero
(`if (subscriptionCount > 0) { const observable$ = ...; if (!observable$)
return; for (let i = 0; i < subscriptionCount; i++) ... }`). -/
def subscriptionsCreatedF (g : Graph) (fuel : Nat) (nid : String) : Option Nat :=
  match runDemandsF g fuel with
  | none => none
  | some memo =>
    let d := demandOf memo nid
    if 0 < d then
      if ((buildProducersF g fuel).obs.lookup nid).isSome then some d else some 0
    else some 0

/-! ### Downstream reachability (for comparison with the claim's wording) -/

/-- One step of downstream closure. -/
def reachStep (g : Graph) (cur : List String) : List String :=
  (cur ++ cur.flatMap (fun nid => (outEdges g nid).map (fun e => e.target))).dedup

/-- Downstream closure computed by iteration. -/
def reachIter (g : Graph) : Nat → List String → List String
  | 0 => fun cur => cur
  | f + 1 => fun cur => reachIter g f (reachStep g cur)

/-- The distinct observer-sink nodes reachable downstream (through at least
one edge) from a node. -/
def reachableSinkCount (g : Graph) (nid : String) : Nat :=
  ((reachIter g g.nodes.length ((outEdges g nid).map (fun e => e.target))).filter
    (fun x => isObserverNode g x)).length

/-! ### Lifecycle events and the visualizer's per-subscription status -/

/-- The `RxEventType` union from `rx-logic.ts`. -/
inductive RxEventType where
  | subscribe
  | next
  | error
  | complete
  | unsubscribe
deriving DecidableEq, Repr

/-- The `NodeStatus` union from `rx-logic.ts`. -/
inductive NodeStatus where
  | idle
  | active
  | completed
  | errored
  | cancelled
deriving DecidableEq, Repr

/-- An `RxEvent` as enqueued on the lifecycle event bus. -/
structure BusEv where
  type : RxEventType
  nodeId : String
  subId : Option String := none
  value : Option RVal := none
deriving DecidableEq, Repr

/-- A status that the spec calls terminal. -/
def isTerminalStatus (s : NodeStatus) : Bool :=
  s == NodeStatus.completed || s == NodeStatus.errored || s == NodeStatus.cancelled

/-- The per-subscription status transition implemented by the
`eventObserver.subscribe` handler in `rx-visualizer.tsx`, restricted to one
`(nodeId, subscriptionId)` cell of `nodeSubscriptions` (`none` = no entry
yet; the handler only acts on events carrying a `subscriptionId`):
`subscribe` stores `active` unconditionally, `next` leaves the map untouched,
`complete`/`error` store `completed`/`errored` unconditionally, and
`unsubscribe` stores `cancelled` only when the current status is `active`. -/
def applyVisEvent (st : Option NodeStatus) (t : RxEventType) : Option NodeStatus :=
  match t with
  | RxEventType.subscribe => some NodeStatus.active
  | RxEventType.next => st
  | RxEventType.complete => some NodeStatus.completed
  | RxEventType.error => some NodeStatus.errored
  | RxEventType.unsubscribe =>
    if st = some NodeStatus.active then some NodeStatus.cancelled else st

/-- Folding the visualizer handler over a sequence of event types for one
subscription. -/
def foldStatus (st : Option NodeStatus) (evs : List RxEventType) : Option NodeStatus :=
  evs.foldl applyVisEvent st

/-! ### Events a producer delivers to one of its subscribers -/

/-- What a producer delivers to a single subscriber (downstream events). -/
inductive DownEv where
  | next (v : RVal)
  | error
  | complete
deriving DecidableEq, Repr

/-- The events the subscription loop of `buildRxStream` enqueues for a
delivered downstream event — tagged with the node id and subscription id. -/
def tagSubEv (nid sid : String) : DownEv → BusEv
  | DownEv.next v => ⟨RxEventType.next, nid, some sid, some v⟩
  | DownEv.error => ⟨RxEventType.error, nid, some sid, none⟩
  | DownEv.complete => ⟨RxEventType.complete, nid, some sid, none⟩

/-- The node-level events the `tap` of the lifecycle pipe enqueues (no
subscription id). -/
def tagNodeEv (nid : String) : DownEv → BusEv
  | DownEv.next v => ⟨RxEventType.next, nid, none, some v⟩
  | DownEv.error => ⟨RxEventType.error, nid, none, none⟩
  | DownEv.complete => ⟨RxEventType.complete, nid, none, none⟩

/-- The deferred `subscribe` event enqueued by the subscription loop. -/
def subscribeBusEv (nid sid : String) : BusEv :=
  ⟨RxEventType.subscribe, nid, some sid, none⟩

/-- The bus events one run of the `tap`/`finalize` lifecycle pipe produces
when the wrapped producer delivers `evs` to a subscriber: each event is
re-reported under the node's own id and `finalize` appends an `unsubscribe`
event when the subscription ends. -/
def wrapperBusEvents (nid : String) (evs : List DownEv) : List BusEv :=
  evs.map (tagNodeEv nid) ++ [⟨RxEventType.unsubscribe, nid, none, none⟩]

/-- The lifecycle pipe fires once per actual subscription of the wrapped
producer (rxjs `tap` is per-subscription); with zero subscriptions it never
runs. -/
def wrapperFires (subCount : Nat) (nid : String) (evs : List DownEv) : List BusEv :=
  (List.replicate subCount (wrapperBusEvents nid evs)).flatten

/-! ### The enqueue order around the deferred `subscribe` event (C6)

`observable$.subscribe(...)` is called first; any events the producer
delivers *synchronously* during that call are enqueued immediately by the
handlers.  The `subscribe` event is enqueued by a `setTimeout(..., 0)`
macrotask, which runs after the synchronous build phase and before any later
timer (asynchronous emissions arrive later still). -/

/-- The bus-enqueue trace around one subscription attach: the producer's
synchronous deliveries (tagged with the subscription id), then the deferred
`subscribe` event. -/
def attachEnqueueTrace (nid sid : String) (syncEvs : List DownEv) : List BusEv :=
  syncEvs.map (tagSubEv nid sid) ++ [subscribeBusEv nid sid]

/-- Semantics of `from(values)`: it delivers all values and the completion synchronously at
subscribe time (rxjs cold array observable). -/
def arraySyncEvents (vs : List RVal) : List DownEv :=
  vs.map DownEv.next ++ [DownEv.complete]

/-! ### The custom `take` operator (C4)

`new Observable(observer => { let count = 0; const maxCount = ...; ... })`:
the subscribe function runs once per subscription, so `count` starts at zero
independently for every subscriber.  The recursion below replays the handler
over the values the (cold) upstream delivers to this particular
subscription: each value increments `count`, is forwarded while
`count <= maxCount`, and `observer.complete()` fires as soon as
`count >= maxCount` (tearing down the upstream subscription); if the
upstream completes first, the completion is forwarded. -/

def takeRunAux (maxCount : Nat) : List RVal → Nat → List DownEv
  | [], _ => [DownEv.complete]
  | v :: rest, count =>
    let c := count + 1
    (if c ≤ maxCount then [DownEv.next v] else []) ++
      (if c ≥ maxCount then [DownEv.complete] else takeRunAux maxCount rest c)

/-- The downstream events one subscription of the custom `take` producer
sees, given the values its own upstream instance delivers. -/
def takeRun (maxCount : Nat) (src : List RVal) : List DownEv :=
  takeRunAux maxCount src 0

/-- N independent multiplexed subscriptions of the `take` producer: each
invocation of the subscribe function initializes its own `count = 0`, and a
cold upstream replays the same values for each subscriber. -/
def takeMultiRuns (k : Nat) (maxCount : Nat) (src : List RVal) : List (List DownEv) :=
  List.replicate k (takeRun maxCount src)

/-- Number of `next` events in a downstream trace. -/
def countNextEvents (evs : List DownEv) : Nat :=
  evs.countP (fun e => match e with | DownEv.next _ => true | _ => false)

/-- Number of `complete` events in a downstream trace. -/
def countCompleteEvents (evs : List DownEv) : Nat :=
  evs.countP (fun e => e == DownEv.complete)

/-- Number of bus events of a given type in a bus trace. -/
def countBusType (t : RxEventType) (tr : List BusEv) : Nat :=
  tr.countP (fun b => b.type == t)

/-! ### Teardown (C5)

The `unsubscribe` closure returned by `buildRxStream` runs
`subscriptions.forEach(sub => sub.unsubscribe()); eventSubject.complete()`.
rxjs semantics modelled: `Subscription.unsubscribe` is a no-op when the
subscription is already closed, and otherwise closes it and runs its
teardown logic, clearing every pending timer owned by the subscription's
chain (interval timers, `probabilistic` delay timers, `switchMapTo` inner
subscriptions); `Subject.complete` is a no-op when the subject is already
stopped, and otherwise stops it (delivering one completion notification to
bus observers); a stopped subject drops every later `next`. -/

/-- One tracked subscription: closed flag plus the pending timers its
teardown would clear. -/
structure SubHandle where
  closed : Bool
  timers : List Nat
deriving DecidableEq, Repr

/-- The lifecycle event bus (`eventSubject`). -/
structure BusHandle where
  stopped : Bool
deriving DecidableEq, Repr

/-- The state owned by one run of `buildRxStream`. -/
structure RunHandle where
  subs : List SubHandle
  bus : BusHandle
deriving DecidableEq, Repr

/-- Embedding of `sub.unsubscribe()`. -/
def unsubscribeOne (s : SubHandle) : SubHandle :=
  if s.closed then s else ⟨true, []⟩

/-- Embedding of `eventSubject.complete()` — returns the new bus state and the completion
notifications delivered to bus observers. -/
def busComplete (b : BusHandle) : BusHandle × List RxEventType :=
  if b.stopped then (b, []) else (⟨true⟩, [RxEventType.complete])

/-- The `unsubscribe` closure returned by `buildRxStream`. -/
def stopRun (r : RunHandle) : RunHandle × List RxEventType :=
  let subs := r.subs.map unsubscribeOne
  let bc := busComplete r.bus
  (⟨subs, bc.1⟩, bc.2)

/-- Delivery of an event pushed on the bus after (or before) teardown: a
stopped subject drops it. -/
def busDeliver (b : BusHandle) (e : BusEv) : Option BusEv :=
  if b.stopped then none else some e

/-! ### The custom `switchMapTo` state machine (C3)

The machine processes the primary's deliveries in order.  The secondary is a
*cold* finite-sequence producer: every `subscribe` replays all of its values
and completes synchronously (which is why the code re-subscribes
`nodeObservables.get(secondaryInput)` to get a fresh run rather than reusing
an exhausted execution).  State mirrors the closure variables:
`innerExists` (`innerSubscription !== null`), `innerClosed`
(`innerSubscription.closed`), `isCompleted`. -/

structure SwState where
  innerExists : Bool
  innerClosed : Bool
  isCompleted : Bool
deriving DecidableEq, Repr

def swInit : SwState := ⟨false, false, false⟩

/-- The fixed secondary subscription id
(`switchmapto_` + node id; the code appends a timestamp). -/
def swSecSubId (opId : String) : String := "switchmapto_" ++ opId

/-- Primary deliveries driving the machine. -/
inductive PrimEv where
  | next (v : RVal)
  | error
  | complete
deriving DecidableEq, Repr

/-- One step of the custom `switchMapTo` observable, returning the new state
and the bus events it enqueues.  On a primary `next`: if an inner
subscription exists, an `unsubscribe` event on the secondary node's id is
enqueued and the inner subscription is cancelled; a `subscribe` event on the
secondary node's id is enqueued; a fresh subscription of the (cold)
secondary replays all its values, each forwarded as a `next` on the
operator's id; the fresh inner run then completes synchronously (so
`innerClosed` becomes true), emitting the operator's `complete` only when
`isCompleted` is already set.  On primary `error`: forward the error.  On
primary `complete`: set `isCompleted` and complete only when no inner
subscription exists or the current one is closed. -/
def swStep (opId secId : String) (sec : List RVal) (s : SwState) :
    PrimEv → SwState × List BusEv
  | PrimEv.next _ =>
    let pre :=
      if s.innerExists then
        [⟨RxEventType.unsubscribe, secId, some (swSecSubId opId), none⟩]
      else []
    let evs := pre ++ [⟨RxEventType.subscribe, secId, some (swSecSubId opId), none⟩] ++
      sec.map (fun v => ⟨RxEventType.next, opId, none, some v⟩) ++
      (if s.isCompleted then [⟨RxEventType.complete, opId, none, none⟩] else [])
    (⟨true, true, s.isCompleted⟩, evs)
  | PrimEv.error =>
    (s, [⟨RxEventType.error, opId, none, none⟩])
  | PrimEv.complete =>
    let s2 : SwState := ⟨s.innerExists, s.innerClosed, true⟩
    if !s.innerExists || s.innerClosed then
      (s2, [⟨RxEventType.complete, opId, none, none⟩])
    else (s2, [])

/-- Run the `switchMapTo` machine over a list of primary deliveries,
accumulating the enqueued bus events. -/
def swRun (opId secId : String) (sec : List RVal) :
    SwState → List PrimEv → SwState × List BusEv
  | s, [] => (s, [])
  | s, e :: rest =>
    let r1 := swStep opId secId sec s e
    let r2 := swRun opId secId sec r1.1 rest
    (r2.1, r1.2 ++ r2.2)

/-! ### Interval / probabilistic behaviour (C10) -/

/-- rxjs `interval(p)` emits its k-th value at time `(k+1) * p`. -/
def intervalEmitTime (period : Nat) (k : Nat) : Nat :=
  (k + 1) * period

/-- Outcome of the `probabilistic` source once its delay timer fires, given
the drawn random number: success (one payload then completion) when
`random <= successRate`, else an error. -/
def probOutcome (successRate : ℚ) (random : ℚ) : List DownEv :=
  if random ≤ successRate then [DownEv.next (RVal.s "success"), DownEv.complete]
  else [DownEv.error]

/-! ### Concrete graphs used to instantiate the claims -/

/-- An observable-kind node with default configuration. -/
def obsN (i sub : String) : GNode :=
  { id := i, kind := NodeKind.observable, subtype := sub }

/-- An operator-kind node with default configuration. -/
def opN (i sub : String) : GNode :=
  { id := i, kind := NodeKind.operator, subtype := sub }

/-- An observer (sink) node. -/
def sinkN (i : String) : GNode :=
  { id := i, kind := NodeKind.observer, subtype := "console" }

/-- An edge with no target handle. -/
def edge (s t : String) : GEdge := { source := s, target := t }

/-- One interval source feeding two sinks directly. -/
def forkG : Graph :=
  ⟨[obsN "A" "interval", sinkN "S1", sinkN "S2"], [edge "A" "S1", edge "A" "S2"]⟩

/-- A diamond: one source, two map operators, one shared sink — two distinct
paths reach a single sink. -/
def diamondG : Graph :=
  ⟨[obsN "A" "interval", opN "B" "map", opN "C" "map", sinkN "D"],
   [edge "A" "B", edge "A" "C", edge "B" "D", edge "C" "D"]⟩

/-- A single isolated interval source with no edges at all. -/
def isoG : Graph := ⟨[obsN "X" "interval"], []⟩

/-- A one-node cyclic graph: a map operator with a self-loop edge. -/
def cycG : Graph := ⟨[opN "A" "map"], [edge "A" "A"]⟩

/-- A `takeUntil` (dual-input) operator that has only one resolved upstream. -/
def singleInG : Graph :=
  ⟨[obsN "A" "array",
    { id := "T", kind := NodeKind.operator, subtype := "takeUntil", multipleInputs := true },
    sinkN "S"],
   [edge "A" "T", edge "T" "S"]⟩

/-- A `takeUntil` operator with no resolved upstream at all. -/
def zeroInG : Graph :=
  ⟨[{ id := "T", kind := NodeKind.operator, subtype := "takeUntil", multipleInputs := true },
    sinkN "S"],
   [edge "T" "S"]⟩

/-- A `takeUntil` operator with both ports resolved. -/
def dualInG : Graph :=
  ⟨[obsN "A" "array", obsN "B" "interval",
    { id := "T", kind := NodeKind.operator, subtype := "takeUntil", multipleInputs := true },
    sinkN "S"],
   [{ source := "A", target := "T", targetHandle := Port.primary },
    { source := "B", target := "T", targetHandle := Port.secondary },
    edge "T" "S"]⟩

/-- A `merge` observable node with only one upstream. -/
def mergeOneG : Graph :=
  ⟨[obsN "A" "interval", obsN "M" "merge", sinkN "S"], [edge "A" "M", edge "M" "S"]⟩

/-- An interval source whose configured period is the falsy `0`. -/
def intervalZeroG : Graph :=
  ⟨[{ id := "i", kind := NodeKind.observable, subtype := "interval",
      config := { period := some 0 } }, sinkN "S"],
   [edge "i" "S"]⟩

/-- A `take` operator whose configured count is the falsy `0`. -/
def takeZeroG : Graph :=
  ⟨[obsN "A" "array",
    { id := "t", kind := NodeKind.operator, subtype := "take",
      config := { count := some 0 } },
    sinkN "S"],
   [edge "A" "t", edge "t" "S"]⟩

/-- A `probabilistic` source whose configured success rate is the falsy `0`. -/
def probZeroG : Graph :=
  ⟨[{ id := "p", kind := NodeKind.observable, subtype := "probabilistic",
      config := { successRate := some 0 } }, sinkN "S"],
   [edge "p" "S"]⟩

/-- An `array` source feeding one sink (a synchronously-emitting producer
that gets exactly one subscription). -/
def arraySinkG : Graph :=
  ⟨[obsN "arr" "array", sinkN "S"], [edge "arr" "S"]⟩

/-! ### Helper lemmas about the `switchMapTo` machine -/

/-- Expected bus trace of the `switchMapTo` machine over a sequence of
primary values: each value yields (when an inner subscription already exists)
an `unsubscribe` on the secondary id, then a `subscribe` on the secondary id,
then a full fresh replay of the secondary's values on the operator's id. -/
def swTraceSpecAux (opId secId : String) (sec : List RVal) :
    Bool → List RVal → List BusEv
  | _, [] => []
  | innerNow, _ :: rest =>
    (if innerNow then
      [⟨RxEventType.unsubscribe, secId, some (swSecSubId opId), none⟩]
     else []) ++
    [⟨RxEventType.subscribe, secId, some (swSecSubId opId), none⟩] ++
    sec.map (fun v => ⟨RxEventType.next, opId, none, some v⟩) ++
    swTraceSpecAux opId secId sec true rest

/-- The event types that the `switchMapTo` machine emits on the *secondary
subscription id* when two primary values arrive and the secondary is a
one-element sequence — the event stream the visualizer folds for that
subscription id. -/
def swSecondaryTypes : List RxEventType :=
  (((swRun "op" "sec" [RVal.i 7] swInit
      [PrimEv.next (RVal.i 1), PrimEv.next (RVal.i 2)]).2).filter
      (fun b => b.subId == some (swSecSubId "op"))).map (fun b => b.type)

/-- A concrete run state: one open subscription owning a pending timer, one
already-closed subscription, bus not yet stopped. -/
def sampleRun : RunHandle :=
  ⟨[⟨false, [3]⟩, ⟨true, []⟩], ⟨false⟩⟩

theorem validMemo_nil (g : Graph) : ValidMemo g [] := by
  intro nid k h
  simp [List.lookup] at h

theorem validMemo_cons {g : Graph} {memo : Memo} {nid : String} {k : Nat}
    (h : ValidMemo g memo) (hk : ∃ f, sinkPathCountF g f nid = some k) :
    ValidMemo g ((nid, k) :: memo) := by
  intro n k2 hl
  rw [List.lookup] at hl
  by_cases hn : n = nid
  · subst hn
    simp at hl
    subst hl
    exact hk
  · have : (n == nid) = false := by
      simp [hn]
    rw [this] at hl
    exact h n k2 hl

theorem sumPathsWith_congr_some (r1 r2 : String → Option Nat)
    (h : ∀ t k, r1 t = some k → r2 t = some k) :
    ∀ (es : List GEdge) (acc t : Nat),
      sumPathsWith r1 es acc = some t → sumPathsWith r2 es acc = some t := by
  intro es
  induction es with
  | nil =>
    intro acc t h2
    simpa [sumPathsWith] using h2
  | cons e rest ih =>
    intro acc t h2
    rw [sumPathsWith] at h2
    cases hr : r1 e.target with
    | none =>
      rw [hr] at h2
      exact absurd h2 (by simp)
    | some k =>
      rw [hr] at h2
      rw [sumPathsWith, h e.target k hr]
      exact ih _ _ h2

/-- The memo-free sink-path count is stable under adding fuel. -/
theorem sinkPathCountF_mono (g : Graph) :
    ∀ (f f2 : Nat), f ≤ f2 → ∀ (nid : String) (k : Nat),
      sinkPathCountF g f nid = some k → sinkPathCountF g f2 nid = some k := by
  intro f
  induction f with
  | zero =>
    intro f2 _ nid k h
    simp [sinkPathCountF] at h
  | succ f ih =>
    intro f2 hle nid k h
    obtain ⟨f2, rfl⟩ : ∃ m, f2 = m + 1 := ⟨f2 - 1, by omega⟩
    rw [sinkPathCountF] at h
    rw [sinkPathCountF]
    by_cases hout : (outEdges g nid).isEmpty
    · simp only [hout, if_true] at h ⊢
      exact h
    · simp only [hout, if_false, Bool.false_eq_true] at h ⊢
      exact sumPathsWith_congr_some _ _
        (fun t k2 hh => ih f2 (by omega) t k2 hh) _ _ _ h

/-- Soundness of the memoization in `calculateSubscriptionCounts`: whenever
the memoized computation terminates, the count it returns for a node is the
memo-free sink-path count of that node, and every entry it caches is
likewise correct. -/
theorem calcSubCountsF_sound (g : Graph) :
    ∀ (f : Nat) (memo : Memo) (nid : String) (k : Nat) (m2 : Memo),
      ValidMemo g memo → calcSubCountsF g f memo nid = some (k, m2) →
      (∃ f2, sinkPathCountF g f2 nid = some k) ∧ ValidMemo g m2 := by
  intro f
  induction f with
  | zero =>
    intro memo nid k m2 _ h
    simp [calcSubCountsF] at h
  | succ f ih =>
    have sum : ∀ (es : List GEdge) (acc : Nat) (memo : Memo) (t : Nat) (m2 : Memo),
        ValidMemo g memo → sumSubWith (calcSubCountsF g f) es acc memo = some (t, m2) →
        ValidMemo g m2 ∧ ∃ F, sumPathsWith (sinkPathCountF g F) es acc = some t := by
      intro es
      induction es with
      | nil =>
        intro acc memo t m2 hv h
        simp [sumSubWith] at h
        obtain ⟨rfl, rfl⟩ := h
        exact ⟨hv, 0, by simp [sumPathsWith]⟩
      | cons e rest ihe =>
        intro acc memo t m2 hv h
        rw [sumSubWith] at h
        cases hc : calcSubCountsF g f memo e.target with
        | none =>
          rw [hc] at h
          exact absurd h (by simp)
        | some pr =>
          obtain ⟨k1, m1⟩ := pr
          rw [hc] at h
          obtain ⟨⟨f1, hf1⟩, hvm1⟩ := ih memo e.target k1 m1 hv hc
          obtain ⟨hvm2, F2, hF2⟩ := ihe (acc + k1) m1 t m2 hvm1 h
          refine ⟨hvm2, max f1 F2, ?_⟩
          have h1 : sinkPathCountF g (max f1 F2) e.target = some k1 :=
            sinkPathCountF_mono g f1 (max f1 F2) (le_max_left _ _) _ _ hf1
          have h2 : sumPathsWith (sinkPathCountF g (max f1 F2)) rest (acc + k1) = some t :=
            sumPathsWith_congr_some _ _
              (fun t2 k2 hh => sinkPathCountF_mono g F2 _ (le_max_right _ _) _ _ hh)
              _ _ _ hF2
          rw [sumPathsWith, h1]
          exact h2
    intro memo nid k m2 hv h
    simp only [calcSubCountsF] at h
    cases hl : memo.lookup nid with
    | some k0 =>
      rw [hl] at h
      simp at h
      obtain ⟨rfl, rfl⟩ := h
      exact ⟨hv nid k0 hl, hv⟩
    | none =>
      rw [hl] at h
      by_cases hout : (outEdges g nid).isEmpty
      · simp only [hout, if_true] at h
        by_cases hobs : isObserverNode g nid
        · simp only [hobs, if_true] at h
          simp at h
          obtain ⟨rfl, rfl⟩ := h
          have h1 : sinkPathCountF g 1 nid = some 1 := by
            simp [sinkPathCountF, hout, hobs]
          exact ⟨⟨1, h1⟩, validMemo_cons hv ⟨1, h1⟩⟩
        · simp only [hobs, if_false, Bool.false_eq_true] at h
          simp at h
          obtain ⟨rfl, rfl⟩ := h
          refine ⟨⟨1, ?_⟩, hv⟩
          simp [sinkPathCountF, hout, hobs]
      · simp only [hout, if_false, Bool.false_eq_true] at h
        cases hs : sumSubWith (calcSubCountsF g f) (outEdges g nid) 0 memo with
        | none =>
          rw [hs] at h
          exact absurd h (by simp)
        | some pr =>
          obtain ⟨t, m1⟩ := pr
          rw [hs] at h
          simp at h
          obtain ⟨rfl, rfl⟩ := h
          obtain ⟨hvm, F, hF⟩ := sum _ _ _ _ _ hv hs
          have h1 : sinkPathCountF g (F + 1) nid = some t := by
            rw [sinkPathCountF]
            simp only [hout, if_false, Bool.false_eq_true]
            exact hF
          exact ⟨⟨F + 1, h1⟩, validMemo_cons hvm ⟨F + 1, h1⟩⟩

theorem joinPathsWith_length (r1 : String → Option (List (List String)))
    (r2 : String → Option Nat)
    (h : ∀ t ps, r1 t = some ps → r2 t = some ps.length) :
    ∀ (es : List GEdge) (acc : List (List String)) (ps : List (List String)),
      joinPathsWith r1 es acc = some ps →
      sumPathsWith r2 es acc.length = some ps.length := by
  intro es
  induction es with
  | nil =>
    intro acc ps h2
    simp [joinPathsWith] at h2
    subst h2
    simp [sumPathsWith]
  | cons e rest ih =>
    intro acc ps h2
    rw [joinPathsWith] at h2
    cases hr : r1 e.target with
    | none =>
      rw [hr] at h2
      exact absurd h2 (by simp)
    | some ps1 =>
      rw [hr] at h2
      rw [sumPathsWith, h e.target ps1 hr]
      have := ih (acc ++ ps1) ps h2
      simpa using this

/-- The sink-path count is the number of maximal downstream paths ending at
an observer node. -/
theorem sinkPathsF_length (g : Graph) :
    ∀ (f : Nat) (nid : String) (ps : List (List String)),
      sinkPathsF g f nid = some ps → sinkPathCountF g f nid = some ps.length := by
  intro f
  induction f with
  | zero =>
    intro nid ps h
    simp [sinkPathsF] at h
  | succ f ih =>
    intro nid ps h
    rw [sinkPathsF] at h
    rw [sinkPathCountF]
    by_cases hout : (outEdges g nid).isEmpty
    · simp only [hout, if_true] at h ⊢
      by_cases hobs : isObserverNode g nid
      · simp only [hobs, if_true] at h ⊢
        simp at h
        subst h
        simp
      · simp only [hobs, if_false, Bool.false_eq_true] at h ⊢
        simp at h
        subst h
        simp
    · simp only [hout, if_false, Bool.false_eq_true] at h ⊢
      cases hj : joinPathsWith (sinkPathsF g f) (outEdges g nid) [] with
      | none =>
        rw [hj] at h
        exact absurd h (by simp)
      | some psj =>
        rw [hj] at h
        simp at h
        subst h
        have := joinPathsWith_length (sinkPathsF g f) (sinkPathCountF g f) ih
          (outEdges g nid) [] psj hj
        simpa using this

theorem swRun_ticks (opId secId : String) (sec : List RVal) :
    ∀ (vs : List RVal) (s : SwState), s.isCompleted = false →
      swRun opId secId sec s (vs.map PrimEv.next) =
        ((if vs.isEmpty then s else ⟨true, true, false⟩),
         swTraceSpecAux opId secId sec s.innerExists vs) := by
  intro vs
  induction vs with
  | nil =>
    intro s hs
    simp [swRun, swTraceSpecAux]
  | cons v rest ih =>
    intro s hs
    simp only [List.map_cons, swRun, swStep, hs]
    rw [ih ⟨true, true, false⟩ rfl]
    simp [swTraceSpecAux, List.append_assoc]

theorem swRun_append (opId secId : String) (sec : List RVal) :
    ∀ (l1 l2 : List PrimEv) (s : SwState),
      swRun opId secId sec s (l1 ++ l2) =
        ((swRun opId secId sec (swRun opId secId sec s l1).1 l2).1,
         (swRun opId secId sec s l1).2 ++
           (swRun opId secId sec (swRun opId secId sec s l1).1 l2).2) := by
  intro l1
  induction l1 with
  | nil =>
    intro l2 s
    simp [swRun]
  | cons e rest ih =>
    intro l2 s
    simp [swRun, ih, List.append_assoc]

theorem countP_type_on_next_map (opId : String) (sec : List RVal) (t : RxEventType) :
    List.countP (fun e => e.type == t)
      (sec.map (fun v => (⟨RxEventType.next, opId, none, some v⟩ : BusEv))) =
      if t = RxEventType.next then sec.length else 0 := by
  induction sec with
  | nil => simp
  | cons v rest ih =>
    cases t <;> simp_all [List.countP_cons]

theorem swTraceSpecAux_count_next (opId secId : String) (sec : List RVal) :
    ∀ (vs : List RVal) (b : Bool),
      (swTraceSpecAux opId secId sec b vs).countP
        (fun e => e.type == RxEventType.next) = vs.length * sec.length := by
  intro vs
  induction vs with
  | nil =>
    intro b
    simp [swTraceSpecAux]
  | cons v rest ih =>
    intro b
    simp only [swTraceSpecAux, List.countP_append, ih true, countP_type_on_next_map]
    cases b <;> simp [List.countP_cons] <;> ring

theorem swTraceSpecAux_count_sub (opId secId : String) (sec : List RVal) :
    ∀ (vs : List RVal) (b : Bool),
      (swTraceSpecAux opId secId sec b vs).countP
        (fun e => e.type == RxEventType.subscribe) = vs.length := by
  intro vs
  induction vs with
  | nil =>
    intro b
    simp [swTraceSpecAux]
  | cons v rest ih =>
    intro b
    simp only [swTraceSpecAux, List.countP_append, ih true, countP_type_on_next_map]
    cases b <;> simp [List.countP_cons] <;> omega

theorem swTraceSpecAux_count_unsub (opId secId : String) (sec : List RVal) :
    ∀ (vs : List RVal) (b : Bool),
      (swTraceSpecAux opId secId sec b vs).countP
        (fun e => e.type == RxEventType.unsubscribe) =
        (if b then vs.length else vs.length - 1) := by
  intro vs
  induction vs with
  | nil =>
    intro b
    simp [swTraceSpecAux]
  | cons v rest ih =>
    intro b
    simp only [swTraceSpecAux, List.countP_append, ih true, countP_type_on_next_map]
    cases b
    · simp [List.countP_cons]
    · simp [List.countP_cons]
      omega

theorem swTraceSpecAux_count_complete (opId secId : String) (sec : List RVal) :
    ∀ (vs : List RVal) (b : Bool),
      (swTraceSpecAux opId secId sec b vs).countP
        (fun e => e.type == RxEventType.complete) = 0 := by
  intro vs
  induction vs with
  | nil =>
    intro b
    simp [swTraceSpecAux]
  | cons v rest ih =>
    intro b
    simp only [swTraceSpecAux, List.countP_append, ih true, countP_type_on_next_map]
    cases b <;> simp [List.countP_cons]

/-! ### Helper lemmas about teardown -/

theorem unsubscribeOne_idem (s : SubHandle) :
    unsubscribeOne (unsubscribeOne s) = unsubscribeOne s := by
  cases s with
  | mk closed timers => cases closed <;> simp [unsubscribeOne]

theorem unsubscribeOne_closed (s : SubHandle) :
    (unsubscribeOne s).closed = true ∧ (unsubscribeOne s).timers = [] ∨
      s.closed = true ∧ unsubscribeOne s = s := by
  cases s with
  | mk closed timers => cases closed <;> simp [unsubscribeOne]

/-! ## Claims -/

/-- Claim C1, counterexample: the number of subscriptions created against a
node's producer does *not* equal the number of observer sinks reachable
downstream from it.  In the diamond graph (source `A` feeding maps `B`, `C`,
both feeding the single sink `D`), `A` gets 2 subscriptions while only 1
observer sink is reachable from it: the computation counts *paths* to sinks,
not distinct sinks. -/
theorem subscription_count_ne_reachable_sinks :
    subscriptionsCreatedF diamondG 10 "A" = some 2
    ∧ reachableSinkCount diamondG "A" = 1 := by
  constructor
  · decide
  · decide

/-- Claim C1, amended: the number of subscriptions created against a node's
producer equals its demand — the number of maximal downstream *edge-paths*
ending at an observer sink (counted with multiplicity), not the number of
distinct reachable sinks.  Conjuncts: (1) whenever the memoized
`calculateSubscriptionCounts` terminates, the count it returns is the
memo-free sink-path count; (2) that count is the length of the explicit list
of maximal observer-terminated paths; (3) one source feeding two sinks
directly gets exactly 2 subscriptions; (4) a leaf sink node has demand 1;
(5) a node with no downstream edges that is not a sink has demand 0 and gets
no subscription; (6) in the diamond graph, the demand 2 of `A` is the number
of its two distinct paths to the single sink. -/
theorem subscription_count_amended :
    (∀ (g : Graph) (f : Nat) (memo : Memo) (nid : String) (k : Nat) (m2 : Memo),
      ValidMemo g memo → calcSubCountsF g f memo nid = some (k, m2) →
      ∃ f2, sinkPathCountF g f2 nid = some k)
    ∧ (∀ (g : Graph) (f : Nat) (nid : String) (ps : List (List String)),
      sinkPathsF g f nid = some ps → sinkPathCountF g f nid = some ps.length)
    ∧ subscriptionsCreatedF forkG 10 "A" = some 2
    ∧ (runDemandsF forkG 10).map (fun m => demandOf m "S1") = some 1
    ∧ subscriptionsCreatedF isoG 10 "X" = some 0
    ∧ sinkPathsF diamondG 10 "A" = some [["A", "B", "D"], ["A", "C", "D"]] := by
  refine ⟨?_, ?_, by decide, by decide, by decide, by decide⟩
  · intro g f memo nid k m2 hv h
    exact (calcSubCountsF_sound g f memo nid k m2 hv h).1
  · intro g f nid ps h
    exact sinkPathsF_length g f nid ps h

/-- Witness for the amended C1 theorem at a concrete input: the memoized
count 2 computed for the fork source is indeed its memo-free sink-path
count. -/
theorem subscription_count_amended_witness :
    ∃ f2, sinkPathCountF forkG f2 "A" = some 2 :=
  subscription_count_amended.1 forkG 10 [] "A" 2
    [("A", 2), ("S2", 1), ("S1", 1)] (validMemo_nil forkG) (by decide)

/-- Claim C8, counterexample: a `multiInput` operator node with exactly one
resolved upstream is *not* treated as absent: `processOperator` falls into
the single-input branch, whose `switch` has no case for `takeUntil`, so the
default `result$ = source$` makes the node a pass-through of its single
upstream — downstream consumers receive the upstream's data. -/
theorem multiInput_single_upstream_passthrough :
    (buildProducersF singleInG 10).obs.lookup "T" =
      some (Producer.arrayP defaultArrayValues)
    ∧ (buildProducersF singleInG 10).obs.lookup "A" =
      some (Producer.arrayP defaultArrayValues) :=
  ⟨rfl, rfl⟩

/-- Claim C8, amended: a `multiInput` operator with *zero* resolved upstreams
produces no output producer; with exactly *one* it degrades to a pass-through
of that upstream; with two port-resolved upstreams the dual-input transform
is built (wrapped with the lifecycle pipe); and a `merge` observable node
with fewer than 2 inputs keeps its `EMPTY` placeholder producer. -/
theorem multiInput_resolution_amended :
    (buildProducersF zeroInG 10).obs.lookup "T" = none
    ∧ (buildProducersF singleInG 10).obs.lookup "T" =
        (buildProducersF singleInG 10).obs.lookup "A"
    ∧ (buildProducersF dualInG 10).obs.lookup "T" =
        some (Producer.lifecycleWrap "T"
          (Producer.takeUntilP (Producer.arrayP defaultArrayValues)
            (Producer.intervalP 1000)))
    ∧ (buildProducersF mergeOneG 10).obs.lookup "M" = some Producer.emptyP :=
  ⟨rfl, rfl, rfl, rfl⟩

/-- Helper for claim C9: on the one-node cyclic graph the demand recursion
never terminates, at any recursion depth — `calculateSubscriptionCounts`
writes its memo entry only *after* the recursive summation returns, so the
cycle is re-entered with an unchanged memo forever. -/
theorem calc_cycG_none : ∀ f, calcSubCountsF cycG f [] "A" = none := by
  intro f
  induction f with
  | zero => rfl
  | succ f ih =>
    have hstep : calcSubCountsF cycG (f + 1) [] "A" =
        match sumSubWith (calcSubCountsF cycG f) (outEdges cycG "A") 0 [] with
        | none => none
        | some (t, m) => some (t, ("A", t) :: m) := rfl
    have he : outEdges cycG "A" = [edge "A" "A"] := rfl
    rw [hstep, he]
    simp [sumSubWith, edge, ih]

/-- Claim C9 (the claim is right, the code is wrong): on a malformed cyclic
graph, producer construction does terminate — `processOperator` adds the
node to `processedOperators` before recursing, so the cycle resolves to "no
producer" — but the demand computation does *not*: for every recursion depth
`calculateSubscriptionCounts` fails to terminate on the self-loop graph
(`nodes = [A], edges = [A -> A]`), because its memo is only written after
the recursive summation returns; in JS this is an unbounded recursion
(stack overflow), not a detected cycle. -/
theorem cyclic_demand_divergence :
    (∀ fuel, runDemandsF cycG fuel = none)
    ∧ (buildProducersF cycG 10).obs.lookup "A" = none := by
  constructor
  · intro fuel
    have h : calcSubCountsF cycG fuel [] "A" = none := calc_cycG_none fuel
    have hn : runDemandsF cycG fuel =
        match calcSubCountsF cycG fuel [] "A" with
        | none => none
        | some (_, m) => some m := rfl
    rw [hn, h]
  · rfl

/-- Claim C10: a configured numeric value of `0` is falsy under the `||`
defaulting, so it is replaced by the documented default: an interval node
with `period = 0` is built as `interval(1000)` (its emissions then come
every 1000 ms); a take node with `count = 0` is built with `maxCount = 5`
and forwards 5 values; a probabilistic node with `successRate = 0` is built
with rate `1/2` and behaves exactly as if the configured rate were `0.5`. -/
theorem falsy_config_defaults :
    (buildProducersF intervalZeroG 10).obs.lookup "i" =
      some (Producer.intervalP 1000)
    ∧ (∀ k, intervalEmitTime (jsOrNat (some 0) 1000) (k + 1) =
        intervalEmitTime (jsOrNat (some 0) 1000) k + 1000)
    ∧ (buildProducersF takeZeroG 10).obs.lookup "t" =
        some (Producer.takeP 5 (Producer.arrayP defaultArrayValues))
    ∧ countNextEvents (takeRun (jsOrNat (some 0) 5)
        [RVal.i 0, RVal.i 1, RVal.i 2, RVal.i 3, RVal.i 4, RVal.i 5, RVal.i 6]) = 5
    ∧ (buildProducersF probZeroG 10).obs.lookup "p" =
        some (Producer.probabilisticP 1000 (1 / 2))
    ∧ (∀ rnd : ℚ, probOutcome (jsOrRat (some 0) (1 / 2)) rnd =
        probOutcome (1 / 2) rnd) := by
  refine ⟨rfl, ?_, rfl, by decide, rfl, fun rnd => rfl⟩
  intro k
  simp [intervalEmitTime, jsOrNat]
  ring

/-- Claim C2, counterexample: the per-subscription status kept by the
visualizer is *not* monotonic.  The `switchMapTo` operator re-emits
`unsubscribe` and `subscribe` events on the *same* secondary subscription id
on every switch; folding the visualizer's handler over the secondary-id
events of a two-tick run reaches `cancelled` and then a later `subscribe`
event resets the status to `active`. -/
theorem vis_status_reset_counterexample :
    swSecondaryTypes =
      [RxEventType.subscribe, RxEventType.unsubscribe, RxEventType.subscribe]
    ∧ foldStatus none (swSecondaryTypes.take 2) = some NodeStatus.cancelled
    ∧ foldStatus none swSecondaryTypes = some NodeStatus.active := by
  refine ⟨by decide, by decide, by decide⟩

/-- Claim C2, amended: the visualizer's status cell is monotonic only under
`next` and `unsubscribe` events — once a terminal status is reached, no
later `next` or `unsubscribe` changes it, and `unsubscribe` sets `cancelled`
exactly when the prior status was `active` (never overwriting
`completed`/`errored`) — but a `subscribe` event resets any status to
`active` and `complete`/`error` events overwrite any status
unconditionally. -/
theorem vis_status_amended :
    (∀ (evs : List RxEventType) (s : NodeStatus), isTerminalStatus s = true →
      (∀ e ∈ evs, e = RxEventType.next ∨ e = RxEventType.unsubscribe) →
      foldStatus (some s) evs = some s)
    ∧ (∀ st : Option NodeStatus,
        applyVisEvent st RxEventType.unsubscribe =
          if st = some NodeStatus.active then some NodeStatus.cancelled else st)
    ∧ (∀ st : Option NodeStatus,
        applyVisEvent st RxEventType.subscribe = some NodeStatus.active)
    ∧ (∀ st : Option NodeStatus,
        applyVisEvent st RxEventType.complete = some NodeStatus.completed)
    ∧ (∀ st : Option NodeStatus,
        applyVisEvent st RxEventType.error = some NodeStatus.errored) := by
  refine ⟨?_, fun st => rfl, fun st => rfl, fun st => rfl, fun st => rfl⟩
  intro evs
  induction evs with
  | nil =>
    intro s hs h
    rfl
  | cons e rest ih =>
    intro s hs h
    have he := h e (List.mem_cons_self e rest)
    have hne : applyVisEvent (some s) e = some s := by
      rcases he with rfl | rfl
      · rfl
      · have hna : s ≠ NodeStatus.active := by
          cases s <;> simp_all [isTerminalStatus]
        simp [applyVisEvent, hna]
    show List.foldl applyVisEvent (applyVisEvent (some s) e) rest = some s
    rw [hne]
    exact ih s hs (fun x hx => h x (List.mem_cons_of_mem _ hx))

/-- Witness for the amended C2 theorem: a `completed` status survives a
later `next` and `unsubscribe`. -/
theorem vis_status_amended_witness :
    foldStatus (some NodeStatus.completed)
      [RxEventType.next, RxEventType.unsubscribe] = some NodeStatus.completed :=
  vis_status_amended.1 [RxEventType.next, RxEventType.unsubscribe]
    NodeStatus.completed (by decide) (by decide)

/-- Claim C4: the custom `take` keeps its counter per subscription.  For a
`take(2)` producer over an upstream delivering at least two values, one
subscription sees exactly `next, next, complete`; two independent
multiplexed subscriptions (each running the subscribe function afresh, with
its own `count = 0`, over its own cold upstream instance) each see 2 values
and their own completion, for a total of 4 `next` events — not 2. -/
theorem take_isolated_counts :
    ∀ (a b : RVal) (rest : List RVal),
      takeRun 2 (a :: b :: rest) = [DownEv.next a, DownEv.next b, DownEv.complete]
      ∧ takeMultiRuns 2 2 (a :: b :: rest) =
          [[DownEv.next a, DownEv.next b, DownEv.complete],
           [DownEv.next a, DownEv.next b, DownEv.complete]]
      ∧ ((takeMultiRuns 2 2 (a :: b :: rest)).map countNextEvents).sum = 4
      ∧ (takeMultiRuns 2 2 (a :: b :: rest)).all
          (fun r => countNextEvents r == 2 && countCompleteEvents r == 1) = true := by
  intro a b rest
  have h1 : takeRun 2 (a :: b :: rest) =
      [DownEv.next a, DownEv.next b, DownEv.complete] := by
    show takeRunAux 2 (a :: b :: rest) 0 = _
    norm_num [takeRunAux]
  have h2 : takeMultiRuns 2 2 (a :: b :: rest) =
      [[DownEv.next a, DownEv.next b, DownEv.complete],
       [DownEv.next a, DownEv.next b, DownEv.complete]] := by
    simp [takeMultiRuns, h1, List.replicate]
  refine ⟨h1, h2, ?_, ?_⟩
  · rw [h2]
    simp [countNextEvents, List.countP_cons]
  · rw [h2]
    simp [countNextEvents, countCompleteEvents, List.countP_cons]

/-- Claim C5: teardown is idempotent.  For any run state whose closed
subscriptions hold no pending timers (the rxjs invariant — teardown runs at
close time), the `unsubscribe` closure closes every tracked subscription and
clears every pending timer, stops the bus, and a second call leaves the
state unchanged and delivers no further (duplicate) terminal notification;
after teardown the stopped bus drops every event, including async
completions arriving late. -/
theorem teardown_idempotent :
    ∀ (r : RunHandle),
      (∀ s ∈ r.subs, s.closed = true → s.timers = []) →
      stopRun (stopRun r).1 = ((stopRun r).1, [])
      ∧ ((stopRun r).1.subs.all (fun s => s.closed && s.timers.isEmpty)) = true
      ∧ (stopRun r).1.bus.stopped = true
      ∧ (∀ e : BusEv, busDeliver (stopRun r).1.bus e = none) := by
  intro r hinv
  obtain ⟨subs, bus⟩ := r
  obtain ⟨stopped⟩ := bus
  have hbus : (busComplete ⟨stopped⟩).1 = ⟨true⟩ := by
    cases stopped <;> rfl
  have hs1 : (stopRun ⟨subs, ⟨stopped⟩⟩).1 =
      ⟨subs.map unsubscribeOne, ⟨true⟩⟩ := by
    simp [stopRun, hbus]
  refine ⟨?_, ?_, ?_, ?_⟩
  · rw [hs1]
    have hmm : (subs.map unsubscribeOne).map unsubscribeOne =
        subs.map unsubscribeOne := by
      rw [List.map_map]
      exact List.map_congr_left (fun s _ => unsubscribeOne_idem s)
    simp [stopRun, busComplete, hmm]
  · rw [hs1]
    simp only [List.all_eq_true, List.mem_map]
    rintro x ⟨s, hs, rfl⟩
    rcases unsubscribeOne_closed s with ⟨h1, h2⟩ | ⟨h1, h2⟩
    · simp [h1, h2]
    · rw [h2]
      simp [h1, hinv s hs h1]
  · rw [hs1]
  · intro e
    rw [hs1]
    rfl

/-- Witness for the C5 theorem at a concrete run state (one open
subscription owning a timer, one closed subscription). -/
theorem teardown_idempotent_witness :
    stopRun (stopRun sampleRun).1 = ((stopRun sampleRun).1, [])
    ∧ ((stopRun sampleRun).1.subs.all (fun s => s.closed && s.timers.isEmpty)) = true
    ∧ (stopRun sampleRun).1.bus.stopped = true
    ∧ (∀ e : BusEv, busDeliver (stopRun sampleRun).1.bus e = none) :=
  teardown_idempotent sampleRun (by decide)

/-- Claim C6, counterexample: the deferred `subscribe` event is *not*
enqueued before every `next`/terminal event carrying the same subscription
id.  An `array` source feeding one sink is built as a plain cold array
producer, which delivers all its values and the completion synchronously
during `observable$.subscribe(...)` — those tagged events are enqueued
immediately, while the `subscribe` event waits in a `setTimeout(0)`
macrotask: in the enqueue trace the first `next` for `sub_0` is at index 0
and the `subscribe` for `sub_0` only at index 4. -/
theorem subscribe_event_after_sync_next :
    (buildProducersF arraySinkG 10).obs.lookup "arr" =
      some (Producer.arrayP defaultArrayValues)
    ∧ (attachEnqueueTrace "arr" "sub_0"
        (arraySyncEvents defaultArrayValues)).findIdx
        (fun e => e.type == RxEventType.next && e.subId == some "sub_0") = 0
    ∧ (attachEnqueueTrace "arr" "sub_0"
        (arraySyncEvents defaultArrayValues)).findIdx
        (fun e => e.type == RxEventType.subscribe && e.subId == some "sub_0") = 4 :=
  ⟨rfl, by decide, by decide⟩

/-- Claim C6, amended: the one-tick deferral guarantees the `subscribe`
event precedes every event of its subscription only for producers that
deliver nothing synchronously at attach time: for such a producer the
`subscribe` event is the first event of that subscription in the enqueue
trace (index 0, before all later asynchronous events); in general the
producer's synchronous deliveries are enqueued *before* the deferred
`subscribe`, which always sits at the end of the attach-phase trace. -/
theorem subscribe_event_order_amended :
    ∀ (nid sid : String) (asyncEvs : List BusEv),
      (attachEnqueueTrace nid sid [] ++ asyncEvs).findIdx
        (fun e => e.type == RxEventType.subscribe && e.subId == some sid) = 0
      ∧ (∀ syncEvs, (attachEnqueueTrace nid sid syncEvs).getLast? =
          some (subscribeBusEv nid sid)) := by
  intro nid sid asyncEvs
  constructor
  · show ((subscribeBusEv nid sid) :: asyncEvs).findIdx _ = 0
    rw [List.findIdx_cons]
    simp [subscribeBusEv]
  · intro syncEvs
    simp [attachEnqueueTrace]

/-- Claim C7, counterexample: a producer with zero fan-out is wrapped with
the self-reporting `tap`/`finalize` pipe, but the multiplexer's demand for a
non-observer node with no downstream edges is 0, so *no subscription is ever
created* against the wrapped producer — the pipe never fires and no event of
the isolated node reaches the bus during a run. -/
theorem isolated_node_unobservable :
    (buildProducersF isoG 10).obs.lookup "X" =
      some (Producer.lifecycleWrap "X" (Producer.intervalP 1000))
    ∧ subscriptionsCreatedF isoG 10 "X" = some 0
    ∧ wrapperFires 0 "X" [DownEv.next (RVal.i 0)] = [] :=
  ⟨rfl, by decide, rfl⟩

/-- Claim C7, amended: the zero-fan-out lifecycle wrapper does self-report
every event of the wrapped producer under the node's own id (with a final
`unsubscribe` from `finalize`), but only once per actual subscription — and
since an isolated non-observer node has demand 0, it is never subscribed, so
these events never occur during a run. -/
theorem isolated_node_wrapper_amended :
    ∀ (nid : String) (evs : List DownEv),
      (wrapperBusEvents nid evs).all (fun b => b.nodeId == nid) = true
      ∧ (wrapperBusEvents nid evs).getLast? =
          some ⟨RxEventType.unsubscribe, nid, none, none⟩
      ∧ countBusType RxEventType.next (wrapperBusEvents nid evs) =
          countNextEvents evs
      ∧ countBusType RxEventType.unsubscribe (wrapperBusEvents nid evs) = 1
      ∧ wrapperFires 1 nid evs = wrapperBusEvents nid evs
      ∧ wrapperFires 0 nid evs = [] := by
  intro nid evs
  refine ⟨?_, ?_, ?_, ?_, by simp [wrapperFires], rfl⟩
  · rw [List.all_eq_true]
    intro x hx
    rcases List.mem_append.mp hx with hx1 | hx2
    · obtain ⟨e, _, rfl⟩ := List.mem_map.mp hx1
      cases e <;> simp [tagNodeEv]
    · simp only [List.mem_singleton] at hx2
      subst hx2
      simp
  · simp [wrapperBusEvents]
  · simp only [wrapperBusEvents, countBusType, countNextEvents,
      List.countP_append, List.countP_map]
    have : List.countP ((fun b => b.type == RxEventType.next) ∘ tagNodeEv nid) evs =
        List.countP (fun e => match e with | DownEv.next _ => true | _ => false) evs := by
      apply List.countP_congr
      intro e he
      cases e <;> rfl
    rw [this]
    simp [List.countP_cons]
  · simp only [wrapperBusEvents, countBusType, List.countP_append, List.countP_map]
    have : List.countP ((fun b => b.type == RxEventType.unsubscribe) ∘ tagNodeEv nid) evs = 0 := by
      apply List.countP_eq_zero.mpr
      intro e he
      cases e <;> simp [tagNodeEv, Function.comp]
    rw [this]
    simp [List.countP_cons]

/-- Claim C3: the custom `switchMapTo` machine, driven by a primary that
delivers `vs` and then completes, with a cold finite-sequence secondary
`sec`: (1) the full bus trace is, per primary value, an
`unsubscribe`/`subscribe` pair on the secondary's id (the very first value
has no active inner subscription, so only a `subscribe`) followed by a fresh
replay of *all* of `sec` forwarded on the operator's id, with the operator's
own `complete` strictly last; (2) the number of forwarded `next` events is
`vs.length * sec.length` — each tick yields all secondary elements, the
secondary is never exhausted; (3)-(4) there are `vs.length` `subscribe`
events and `vs.length - 1` `unsubscribe` events on the secondary; (5) the
operator completes exactly once, and (6) never before the primary has
completed (a run of the primary values alone emits no `complete`): the
completion requires the primary completed *and* the current inner
subscription closed. -/
theorem switchMapTo_fresh_resubscribe :
    ∀ (opId secId : String) (sec vs : List RVal),
      (swRun opId secId sec swInit (vs.map PrimEv.next ++ [PrimEv.complete])).2 =
        swTraceSpecAux opId secId sec false vs ++
          [⟨RxEventType.complete, opId, none, none⟩]
      ∧ countBusType RxEventType.next
          (swRun opId secId sec swInit (vs.map PrimEv.next ++ [PrimEv.complete])).2 =
          vs.length * sec.length
      ∧ countBusType RxEventType.subscribe
          (swRun opId secId sec swInit (vs.map PrimEv.next ++ [PrimEv.complete])).2 =
          vs.length
      ∧ countBusType RxEventType.unsubscribe
          (swRun opId secId sec swInit (vs.map PrimEv.next ++ [PrimEv.complete])).2 =
          vs.length - 1
      ∧ countBusType RxEventType.complete
          (swRun opId secId sec swInit (vs.map PrimEv.next ++ [PrimEv.complete])).2 = 1
      ∧ countBusType RxEventType.complete
          (swRun opId secId sec swInit (vs.map PrimEv.next)).2 = 0 := by
  intro opId secId sec vs
  have hticks := swRun_ticks opId secId sec vs swInit rfl
  have h2 : (swRun opId secId sec swInit (vs.map PrimEv.next)).2 =
      swTraceSpecAux opId secId sec false vs := by
    rw [hticks]
    rfl
  have hlast : (swRun opId secId sec
      (swRun opId secId sec swInit (vs.map PrimEv.next)).1 [PrimEv.complete]).2 =
      [⟨RxEventType.complete, opId, none, none⟩] := by
    rw [hticks]
    cases hvs : vs.isEmpty <;> simp [swRun, swStep, swInit, hvs]
  have htr : (swRun opId secId sec swInit (vs.map PrimEv.next ++ [PrimEv.complete])).2 =
      swTraceSpecAux opId secId sec false vs ++
        [⟨RxEventType.complete, opId, none, none⟩] := by
    rw [swRun_append, h2, hlast]
  refine ⟨htr, ?_, ?_, ?_, ?_, ?_⟩
  · rw [htr]
    simp [countBusType, List.countP_append, swTraceSpecAux_count_next,
      List.countP_cons]
  · rw [htr]
    simp [countBusType, List.countP_append, swTraceSpecAux_count_sub,
      List.countP_cons]
  · rw [htr]
    simp [countBusType, List.countP_append, swTraceSpecAux_count_unsub,
      List.countP_cons]
  · rw [htr]
    simp [countBusType, List.countP_append, swTraceSpecAux_count_complete,
      List.countP_cons]
  · rw [h2]
    simp [countBusType, swTraceSpecAux_count_complete]

end RxCraft
